import Mathlib

/-!
Verification development for the ContentHarvest-AI content-ingestion pipeline.

The repository consists of several near-duplicate Python revisions of the same
pipeline.  The definitions below are shallow embeddings of the revisions that
the checked claims cite:

* `src/backend/content/content_processor.py` — the persistence coordinator
  `vectorize_and_store_web_content`, the qdrant wrapper
  `vectorize_information_to_qdrant`, and the model-output cleaning step;
* `src/backend/services/vector_schemas.py` — `ContentProcessor.add_payload`;
* `src/backend/models/mongo/db_manager.py` — `MongoDBManager.insert_web_content`
  (only its declared signature matters here);
* `src/backend/models/rag/qdrant.py` — `insert_data_to_qdrant` /
  `search_data_in_qdrant` (the revision that tags and filters by tenant);
* `src/backend/rag/qdrant.py` — `insert_data_to_qdrant` /
  `search_data_from_qdrant` (the revision imported by the coordinator).

Modelling conventions:
* Python strings are `String` (or `List Char` where character-level reasoning
  is needed); tenant identifiers (UUIDs in some revisions) are modelled by
  their serialized string form, which is what ends up in a stored payload.
* Python dicts whose keys are string literals and that are only read at known
  keys are records; dicts that are built and then subscripted at arbitrary
  keys (the vector payload `content` dict) are association lists `PyDict`,
  with `d[k]` modelled by `pyGet`, which raises `KeyError` on a missing key.
* Embedding vectors are `List Int`: their numeric content is produced by an
  external model and never inspected by the code under verification, so only
  the list structure (presence, emptiness) is modelled.
* `raise`/uncaught exceptions are `Except String`; a `try/except` block is a
  `match` on the `Except` value.
-/

/-- A minimal universe of Python values as they appear in the vector payloads
of this repository: strings, `None`, the scraped heading lists, and nested
dicts. -/

inductive PyVal where
  | pstr (s : String)
  | pnone
  | pheads (hs : List (String × String))
  | pdict (d : List (String × PyVal))

/-- A Python dict with string keys, as an association list in insertion
order. -/

abbrev PyDict := List (String × PyVal)

/-- `d.get(k)`-style lookup: the first binding of `k`, if any. -/

def pyLookup : PyDict → String → Option PyVal
  | [], _ => none
  | (k', v) :: rest, k => if k' = k then some v else pyLookup rest k

/-- `d[k]` subscription: raises `KeyError` when the key is absent.  This is the
semantics of the `content["input_text"]` access in
`vector_schemas.ContentProcessor.add_payload`. -/

def pyGet (d : PyDict) (k : String) : Except String PyVal :=
  match pyLookup d k with
  | some v => .ok v
  | none => .error ("KeyError: " ++ k)

/-- `{**d, k: v}`-style update: overwrite the existing binding of `k` in place,
or append `k` at the end — Python dict-literal spreading keeps the original
key order and appends new keys. -/

def pySet : PyDict → String → PyVal → PyDict
  | [], k, v => [(k, v)]
  | (k', v') :: rest, k, v =>
      if k' = k then (k', v) :: rest else (k', v') :: pySet rest k v

mutual

/-- Structural equality of Python values (`==` on payload values), used by the
modelled vector-store filter. -/
def pyEq : PyVal → PyVal → Bool
  | .pstr a, .pstr b => a == b
  | .pnone, .pnone => true
  | .pheads a, .pheads b => a == b
  | .pdict a, .pdict b => pyEqList a b
  | _, _ => false

/-- Structural equality of Python dicts, entry by entry. -/
def pyEqList : List (String × PyVal) → List (String × PyVal) → Bool
  | [], [] => true
  | (k, v) :: rest, (k', v') :: rest' => k == k' && pyEq v v' && pyEqList rest rest'
  | _, _ => false

end

/-! ### Model-output cleaning

`content_processor.py` lines 134-137 clean the language-model answer with
`information_content.replace("```json", "").replace("```", "").strip()`.
Python `str.replace` scans left to right replacing non-overlapping
occurrences; `str.strip` removes leading and trailing whitespace. -/

/-- Python `str.replace pat rep` at character level: scan left to right; on a
match emit `rep` and skip past the matched pattern, otherwise keep one
character and continue.  Both patterns used by the cleaning step are
non-empty; for an empty pattern this model is the identity (Python's
empty-pattern semantics never arises in this repository). -/

def pyReplace (pat rep : List Char) : List Char → List Char
  | [] => []
  | c :: cs =>
    if h : pat ≠ [] ∧ pat.isPrefixOf (c :: cs) then
      rep ++ pyReplace pat rep (List.drop pat.length (c :: cs))
    else
      c :: pyReplace pat rep cs
termination_by l => l.length
decreasing_by
  · have hpat := List.length_pos.mpr h.1
    simp only [List.length_drop, List.length_cons]
    omega
  · simp

/-- Python's default `str.strip` character class, modelled by
`Char.isWhitespace` (space, tab, CR, LF). -/

def isSpc (c : Char) : Bool := c.isWhitespace

/-- Python `str.strip()`: drop leading whitespace, then drop trailing
whitespace (via reverse). -/

def pyStrip (s : List Char) : List Char :=
  ((s.dropWhile isSpc).reverse.dropWhile isSpc).reverse

/-- The closing/opening code-fence marker stripped second. -/

def fence : List Char := "```".data

/-- The opening code-fence marker stripped first. -/

def fenceJson : List Char := "```json".data

/-- The cleaning step of `content_processor.py` lines 134-137. -/

def clean (s : List Char) : List Char :=
  pyStrip (pyReplace fence [] (pyReplace fenceJson [] s))

/-- String-level cleaning, as applied to the model answer. -/

def cleanContent (s : String) : String :=
  (clean s.data).asString

/-- The backtick character. -/

def bt : Char := Char.ofNat 96

/-- `pat` occurs as a contiguous substring of `l`. -/

def occurs (pat l : List Char) : Prop := ∃ a b, l = a ++ pat ++ b

/-- Number of leading backticks of a character list. -/

def leadB (l : List Char) : Nat := (l.takeWhile (fun c => c == bt)).length

/-- Trailing-whitespace removal, the second half of `pyStrip`. -/

def stripEnd (l : List Char) : List Char := (l.reverse.dropWhile isSpc).reverse

/-! ### The vector store (qdrant) -/

/-- One element of a `vector_payloads` list handed to an insert operation.
`notDict` models a list element that is not a dict (`models/rag` logs and
skips it; `backend/rag` raises on the attribute access); `entry` carries
`d.get("vector")` (`none` when the key is missing) and
`d.get("payload", {})`. -/

inductive VSet where
  | notDict
  | entry (vector : Option (List Int)) (payload : PyDict)

/-- A stored vector point (qdrant `PointStruct`). -/

structure Point where
  id : String
  vector : Option (List Int)
  payload : PyDict

/-- The external qdrant client's `search` (spec section 6): keep the points
matching every filter condition exactly, rank them by similarity, and return
at most `limit` of them.  Similarity scores are external floating-point
values, so the ranking is abstracted as a reordering function `rank` chosen
by the store. -/

def clientSearch (store : List Point) (rank : List Point → List Point)
    (query_filter : PyDict) (limit : Nat) : List Point :=
  (rank (store.filter (fun p =>
    query_filter.all (fun kv =>
      match pyLookup p.payload kv.1 with
      | some v => pyEq v kv.2
      | none => false)))).take limit

/-- The point-construction loop of `models/rag/qdrant.py`
`insert_data_to_qdrant` (lines 70-96): skip non-dict entries, skip entries
whose vector is missing or falsy (an empty list), and tag every kept payload
with the shared `session_id` and the store instance's `tenant_id`, the tag
overriding any caller-supplied value.  Fresh `uuid4` point ids are modelled
by the external supply `ids`, consumed per appended point. -/

def buildPoints_models (sid tid : String) (ids : Nat → String) :
    List VSet → Nat → List Point
  | [], _ => []
  | .notDict :: rest, n => buildPoints_models sid tid ids rest n
  | .entry v p :: rest, n =>
      match v with
      | none => buildPoints_models sid tid ids rest n
      | some vec =>
          if vec.isEmpty then buildPoints_models sid tid ids rest n
          else
            { id := ids n, vector := some vec,
              payload := pySet (pySet p "session_id" (.pstr sid)) "tenant_id" (.pstr tid) }
              :: buildPoints_models sid tid ids rest (n + 1)

/-- `models/rag/qdrant.py` `insert_data_to_qdrant` (lines 58-110): build the
tagged points; raise when no valid point remains; otherwise the upsert
appends the points to the stored collection. -/

def insert_data_to_qdrant_models (store : List Point) (vector_payloads : List VSet)
    (sid tid : String) (ids : Nat → String) : Except String (List Point) :=
  let points := buildPoints_models sid tid ids vector_payloads 0
  if points.isEmpty then .error "No valid points to insert"
  else .ok (store ++ points)

/-- `models/rag/qdrant.py` `search_data_in_qdrant` (lines 112-145): embed the
query (external, irrelevant to which points are returned), build a must-match
filter on the serialized tenant id, and search with it. -/

def search_data_in_qdrant (store : List Point) (rank : List Point → List Point)
    (tenant_id : String) (limit : Nat) : List Point :=
  clientSearch store rank [("tenant_id", .pstr tenant_id)] limit

/-- The point construction of `backend/rag/qdrant.py` `insert_data_to_qdrant`
(lines 65-81): a comprehension over every entry with no validation; the
payload receives only the shared `session_id`; the instance's `tenant_id` is
NOT added.  A non-dict entry raises on the `.get` attribute access. -/

def buildPoints_rag (sid : String) (ids : Nat → String) :
    List VSet → Nat → Except String (List Point)
  | [], _ => .ok []
  | .notDict :: _, _ => .error "AttributeError: 'get'"
  | .entry v p :: rest, n => do
      let pts ← buildPoints_rag sid ids rest (n + 1)
      pure ({ id := ids n, vector := v, payload := pySet p "session_id" (.pstr sid) } :: pts)

/-- `backend/rag/qdrant.py` `insert_data_to_qdrant` (lines 53-86): upsert the
constructed points (append to the stored collection); any raised exception is
logged and re-raised unchanged. -/

def insert_data_to_qdrant_rag (store : List Point) (vector_payloads : List VSet)
    (sid : String) (ids : Nat → String) : Except String (List Point) :=
  (buildPoints_rag sid ids vector_payloads 0).map (fun pts => store ++ pts)

/-- `backend/rag/qdrant.py` `search_data_from_qdrant` (lines 88-120): a filter
list on `tenant_id` is built (lines 103-112) but never handed to the client's
search call, which is made with no `query_filter`.  The extraneous
`tenant_id=` keyword argument passed to `client.search` (line 118) is not a
parameter of the collaborator's search interface and is dropped here (a real
client build would reject the unknown argument; either way no tenant filter
is ever applied to the query). -/

def search_data_from_qdrant (store : List Point) (rank : List Point → List Point)
    (tenant_id : Option String) (limit : Nat) : List Point :=
  let _filter_list : PyDict :=
    match tenant_id with
    | some t => [("tenant_id", .pstr t)]
    | none => []
  clientSearch store rank [] limit

/-! ### The persistence coordinator -/

/-- The `scrape_result` dict as read by the coordinator.  The coordinator
subscripts top-level keys (`success`, `error`, `original_url`, `all_text`,
`headings`) and the nested `information` keys; the model assumes an input
dict carrying all of them (each revision's own `scrape_url` produces only a
subset, which could only add further missing-key failures). -/

structure ScrapeResult where
  success : Bool
  error : String
  original_url : String
  all_text : String
  headings : List (String × String)
  information_all_text : String
  information_headings : List (String × String)

/-- Externally observable behavior of the collaborators reachable from one
coordinator run: the language-model call (the extracted message content, or
a raised transport/shape error), the embedding call, the qdrant connection
and upsert, the document store (indexed by call number), and the wall
clock. -/

structure Behavior where
  llm : Except String String
  embed : String → Except String (List Int)
  qdrantConnect : Except String Unit
  qdrantUpsert : Except String String
  mongo : Nat → Except String String
  now : String

/-- A vector payload accumulated by `ContentProcessor` (`VectorPayload` in
`vector_schemas.py`). -/

structure VPayload where
  vector : List Int
  payload : PyDict

/-- Store-contacting effects observable in one coordinator run. -/

inductive Effect where
  | docWrite (ok : Bool)
  | vecWrite (ok : Bool)
deriving DecidableEq, Repr

/-- The coordinator's structured result dict
`{success, information, storage_success, error}`. -/

structure CoordResult where
  success : Bool
  information : Option String
  storage_success : Bool
  error : Option String
deriving DecidableEq, Repr

/-- The result dict of the qdrant storage wrapper `{success, info, error}`. -/

structure QWrapResult where
  success : Bool
  info : Option String
  error : Option String
deriving DecidableEq, Repr

/-- `content_processor.py` line 25. -/

def TEXT_LIMIT : Nat := 4000

/-- `content_processor.py` line 26. -/

def HEADING_LIMIT : Nat := 10

/-- The `content` dict built at `content_processor.py` lines 155-160 and
198-203: keys `llm_response`, `all_text` (truncated), `headings` (first ten)
and `mongo_id` — and no `input_text` key. -/

def mkContent (llm_response : PyVal) (sr : ScrapeResult) (mongo_id : String) : PyDict :=
  [("llm_response", llm_response),
   ("all_text", .pstr (sr.information_all_text.take TEXT_LIMIT)),
   ("headings", .pheads (sr.information_headings.take HEADING_LIMIT)),
   ("mongo_id", .pstr mongo_id)]

/-- `vector_schemas.py` `ContentProcessor.add_payload` (lines 30-49): embed
`content["input_text"]` and append a vector payload carrying the url, the
instance tenant id, the content dict and a timestamp.  The subscription
raises `KeyError` whenever the caller's content dict has no `input_text`
key — which is the case at both call sites in `content_processor.py`. -/

def add_payload (beh : Behavior) (tenant_id : String) (payloads : List VPayload)
    (content : PyDict) (url : String) : Except String (List VPayload) := do
  let it ← pyGet content "input_text"
  let t ← match it with
          | .pstr s => Except.ok s
          | _ => Except.error "TypeError: input_text is not a string"
  let vec ← beh.embed t
  pure (payloads ++
    [{ vector := vec,
       payload := [("url", .pstr url), ("tenant_id", .pstr tenant_id),
                   ("content", .pdict content), ("timestamp", .pstr beh.now)] }])

/-- The document-store write call sites, `content_processor.py` lines 141-149
and 184-192: `MongoDBManager.insert_web_content(url=..., raw_text=...,
headings=..., llm_raw_response=..., processed_content=..., metadata=...,
tenant_id=...)`.  The imported manager,
`backend/models/mongo/db_manager.py` lines 34-42, declares
`insert_web_content(url, tenant_id, raw_text, headings,
llm_cleaned_content=None, metadata=None)`: the keywords `llm_raw_response`
and `processed_content` do not exist there, so Python raises `TypeError`
while binding the arguments, before the document store is contacted.  The
document-store behavior oracle is therefore never consulted and no document
write can occur. -/

def mongoCallTypeError : String :=
  "TypeError: insert_web_content() got an unexpected keyword argument 'llm_raw_response'"

/-- See `mongoCallTypeError` and the comment above it. -/

def insert_web_content_call (_beh : Behavior) (_n : Nat) : Except String String :=
  .error mongoCallTypeError

/-- `content_processor.py` `vectorize_information_to_qdrant` (lines 226-250):
construct the store client (`backend/rag/qdrant.py` `connect` wraps its
failure message, lines 37-51), run the insert, and translate any raised
exception into `{success: false, info: null, error: str(e)}`; on success
return `{success: true, info: ..., error: null}`.  The second component is
the list of store-contacting effects of the call. -/

def vectorize_information_to_qdrant (beh : Behavior)
    (_vector_payloads : List VPayload) : QWrapResult × List Effect :=
  match beh.qdrantConnect with
  | .error e =>
      ({ success := false, info := none,
         error := some ("Failed to connect to Qdrant: " ++ e) }, [])
  | .ok _ =>
      match beh.qdrantUpsert with
      | .error e =>
          ({ success := false, info := none, error := some e }, [.vecWrite false])
      | .ok info =>
          ({ success := true, info := some info, error := none }, [.vecWrite true])

/-- Prepend already-performed effects to a continuation's result. -/

def prependTrace (tr : List Effect) (r : Except String CoordResult × List Effect) :
    Except String CoordResult × List Effect :=
  (r.1, tr ++ r.2)

/-- The `except Exception as e` handler of `vectorize_and_store_web_content`
(`content_processor.py` lines 180-222): write the document again, rebuild
the payload with a null summary, store to qdrant, and return the failure
result carrying the caught exception's message; an exception raised inside
this handler is uncaught and propagates to the caller. -/

def exceptBranch (beh : Behavior) (sr : ScrapeResult) (tenant_id : String)
    (e : String) (n : Nat) : Except String CoordResult × List Effect :=
  match insert_web_content_call beh n with
  | .error e2 => (.error e2, [])
  | .ok mongo_id =>
      match add_payload beh tenant_id [] (mkContent .pnone sr mongo_id)
          sr.original_url with
      | .error e3 => (.error e3, [.docWrite true])
      | .ok payloads =>
          let q := vectorize_information_to_qdrant beh payloads
          (.ok { success := false, information := none,
                 storage_success := q.1.success,
                 error := some ("Error during information identification: " ++ e) },
           .docWrite true :: q.2)

/-- `content_processor.py` `vectorize_and_store_web_content` (lines 87-222):
the persistence coordinator.  Returns the structured result — or the
uncaught exception — together with the trace of store-contacting effects of
the run.  The prompt assembly (`get_prompts`, lines 111 and 253-324) is pure
and does not influence the modelled outcome; the language-model call and the
extraction `response["choices"][0]["message"]["content"]` are folded into
`beh.llm`. -/

def vectorize_and_store_web_content (beh : Behavior) (sr : ScrapeResult)
    (tenant_id : String) : Except String CoordResult × List Effect :=
  if sr.success then
    match beh.llm with
    | .error e => exceptBranch beh sr tenant_id e 0
    | .ok information_content =>
        let cleaned_content := cleanContent information_content
        match insert_web_content_call beh 0 with
        | .error e => exceptBranch beh sr tenant_id e 1
        | .ok mongo_id =>
            match add_payload beh tenant_id []
                (mkContent (.pstr cleaned_content) sr mongo_id) sr.original_url with
            | .error e =>
                prependTrace [.docWrite true] (exceptBranch beh sr tenant_id e 1)
            | .ok payloads =>
                let q := vectorize_information_to_qdrant beh payloads
                (.ok { success := true, information := some cleaned_content,
                       storage_success := q.1.success, error := none },
                 .docWrite true :: q.2)
  else
    (.ok { success := false, information := none, storage_success := false,
           error := some ("Web scraping failed: " ++ sr.error) }, [])

/-! ### Heading collection (Prompt Builder) -/

/-- Modelled from the spec: the heading-collection step of the Prompt Builder
(spec section 4.2).  The code that builds the per-level `headings_subset`
dict consumed by `backend/content/prompts.py` `get_prompts(headings_subset,
...)` is not present under `src/` (the cited coordinator revisions hand the
prompt the first ten scraped headings in document order instead); collection
is modelled from the spec's words: visit levels in importance order, h1 down
to h6, taking headings from each level until the total cap (default 10) is
reached, a level contributing nothing being omitted. -/

def collect_headings : List (String × List String) → Nat → List (String × List String)
  | [], _ => []
  | (lvl, hs) :: rest, cap =>
      if cap = 0 then []
      else
        let tk := hs.take cap
        if tk.isEmpty then collect_headings rest cap
        else (lvl, tk) :: collect_headings rest (cap - tk.length)

/-- Total number of collected headings across all levels. -/

def headingsCount (hs : List (String × List String)) : Nat :=
  (hs.map (fun kv => kv.2.length)).sum

/-! ### Concrete fixtures -/

/-- The well-formed scenario-3 model answer
`{"information":{"headings":{"Intro":"Summary text."}}}`. -/

def jsonAnswer : String :=
  "\x7b\"information\":\x7b\"headings\":\x7b\"Intro\":\"Summary text.\"\x7d\x7d\x7d"

/-- A successful scrape of a one-heading page. -/

def srOk : ScrapeResult :=
  { success := true, error := "", original_url := "https://example.com/a",
    all_text := "Intro Summary text.", headings := [("Intro", "h1")],
    information_all_text := "Intro Summary text.",
    information_headings := [("Intro", "h1")] }

/-- A failed scrape (fetch error). -/

def srFail : ScrapeResult :=
  { success := false, error := "connection timed out",
    original_url := "https://example.com/x", all_text := "", headings := [],
    information_all_text := "", information_headings := [] }

/-- Collaborators that all behave: the model answers the scenario-3 JSON and
every store operation succeeds. -/

def behOk : Behavior :=
  { llm := .ok jsonAnswer,
    embed := fun _ => .ok [1],
    qdrantConnect := .ok (),
    qdrantUpsert := .ok "upserted",
    mongo := fun _ => .ok "mongo-id-1",
    now := "2026-01-01T00:00:00" }

/-- Collaborators as `behOk` except that the model call times out. -/

def behTimeout : Behavior := { behOk with llm := .error "Request timed out." }

/-- Collaborators as `behOk` except that the vector store is unreachable. -/

def behConnFail : Behavior := { behOk with qdrantConnect := .error "store unreachable" }

/-- Collaborators as `behOk` except that the vector-store upsert raises. -/

def behUpsertFail : Behavior := { behOk with qdrantUpsert := .error "upsert failed" }

/-- A stored point belonging to tenant `B`. -/

def pointB : Point :=
  { id := "pB", vector := some [1], payload := [("tenant_id", PyVal.pstr "B")] }

/-- An insert entry whose caller-supplied payload claims tenant `B`. -/

def entryB : VSet := .entry (some [1]) [("tenant_id", PyVal.pstr "B")]

/-- A fixed point-id supply. -/

def ids0 : Nat → String := fun _ => "pt0"

/-- The point built by the `models/rag` insert from `entryB` under instance
tenant `A`. -/

def pointA : Point :=
  { id := "pt0", vector := some [1],
    payload := pySet (pySet [("tenant_id", PyVal.pstr "B")] "session_id"
      (PyVal.pstr "sess0")) "tenant_id" (PyVal.pstr "A") }

/-- The spec's own heading-collection example input. -/

def exampleHeadings : List (String × List String) :=
  [("h1", ["a"]), ("h2", ["b", "c"]), ("h3", ["d"])]

/-- Whether an external call returned normally. -/

def exOk {α : Type} : Except String α → Bool
  | .ok _ => true
  | .error _ => false

theorem pyLookup_pySet_self (d : PyDict) (k : String) (v : PyVal) :
    pyLookup (pySet d k v) k = some v := by
  induction d with
  | nil => simp [pySet, pyLookup]
  | cons kv rest ih =>
      obtain ⟨k', v'⟩ := kv
      by_cases h : k' = k
      · simp [pySet, pyLookup, h]
      · simp [pySet, pyLookup, h, ih]

theorem fence_eq_bts : fence = [bt, bt, bt] := by decide

theorem fenceJson_eq : fenceJson = fence ++ "json".data := by decide

theorem isPrefixOf_eq_true_iff :
    ∀ pat l : List Char, pat.isPrefixOf l = true ↔ ∃ t, l = pat ++ t := by
  intro pat
  induction pat with
  | nil => intro l; simp [List.isPrefixOf]
  | cons p ps ih =>
      intro l
      cases l with
      | nil => simp [List.isPrefixOf]
      | cons c cs =>
          simp only [List.isPrefixOf, Bool.and_eq_true, beq_iff_eq, ih]
          constructor
          · rintro ⟨rfl, t, rfl⟩; exact ⟨t, rfl⟩
          · rintro ⟨t, ht⟩
            injection ht with h1 h2
            exact ⟨h1.symm, t, h2⟩

theorem occurs_cons_iff (pat : List Char) (c : Char) (l : List Char) :
    occurs pat (c :: l) ↔ (∃ t, c :: l = pat ++ t) ∨ occurs pat l := by
  constructor
  · rintro ⟨a, b, h⟩
    cases a with
    | nil => exact Or.inl ⟨b, by simpa using h⟩
    | cons a0 as =>
        injection h with h1 h2
        exact Or.inr ⟨as, b, h2⟩
  · rintro (⟨t, ht⟩ | ⟨a, b, h⟩)
    · exact ⟨[], t, by simpa using ht⟩
    · exact ⟨c :: a, b, by simp [h]⟩

theorem not_occurs_nil {pat : List Char} (h : pat ≠ []) : ¬ occurs pat [] := by
  rintro ⟨a, b, hab⟩
  have hlen := congrArg List.length hab
  simp [List.length_append] at hlen
  have hp : pat.length = 0 := by omega
  exact h (List.length_eq_zero.mp hp)

theorem pyReplace_of_not_occurs (pat rep : List Char) :
    ∀ l : List Char, ¬ occurs pat l → pyReplace pat rep l = l := by
  intro l
  induction l with
  | nil => intro _; rw [pyReplace]
  | cons c cs ih =>
      intro hno
      rw [pyReplace]
      have hcond : ¬ (pat ≠ [] ∧ pat.isPrefixOf (c :: cs)) := by
        rintro ⟨_, hpre⟩
        obtain ⟨t, ht⟩ := (isPrefixOf_eq_true_iff pat (c :: cs)).mp hpre
        exact hno ⟨[], t, by simpa using ht⟩
      rw [dif_neg hcond]
      have : ¬ occurs pat cs := fun h => hno ((occurs_cons_iff pat c cs).mpr (Or.inr h))
      rw [ih this]

theorem leadB_cons (c : Char) (l : List Char) :
    leadB (c :: l) = if c == bt then leadB l + 1 else 0 := by
  by_cases h : c == bt
  · simp [leadB, List.takeWhile_cons, h]
  · simp [leadB, List.takeWhile_cons, h]

theorem leadB_ge_two_iff (l : List Char) :
    2 ≤ leadB l ↔ ∃ t, l = bt :: bt :: t := by
  constructor
  · intro h2
    cases l with
    | nil => simp [leadB] at h2
    | cons c cs =>
        rw [leadB_cons] at h2
        by_cases hc : c == bt
        · rw [if_pos hc] at h2
          cases cs with
          | nil => simp [leadB] at h2
          | cons d ds =>
              rw [leadB_cons] at h2
              by_cases hd : d == bt
              · exact ⟨ds, by rw [eq_of_beq hc, eq_of_beq hd]⟩
              · rw [if_neg hd] at h2; omega
        · rw [if_neg hc] at h2; omega
  · rintro ⟨t, rfl⟩
    simp [leadB_cons]

/-- Key structural property of the second `replace`: deleting all leftmost
occurrences of three backticks leaves a string with no three consecutive
backticks (every surviving backtick run has length at most two, and runs
cannot merge because the non-backtick characters separating them are kept). -/

theorem pyReplace_fence_spec :
    ∀ n l, l.length ≤ n →
      ¬ occurs fence (pyReplace fence [] l) ∧ leadB (pyReplace fence [] l) ≤ leadB l := by
  intro n
  induction n with
  | zero =>
      intro l hl
      have : l = [] := List.length_eq_zero.mp (Nat.le_zero.mp hl)
      subst this
      rw [pyReplace]
      exact ⟨not_occurs_nil (by decide), le_rfl⟩
  | succ n ih =>
      intro l hl
      cases l with
      | nil =>
          rw [pyReplace]
          exact ⟨not_occurs_nil (by decide), le_rfl⟩
      | cons c cs =>
          rw [pyReplace]
          by_cases hcond : fence ≠ [] ∧ fence.isPrefixOf (c :: cs)
          · rw [dif_pos hcond]
            obtain ⟨t, ht⟩ := (isPrefixOf_eq_true_iff fence (c :: cs)).mp hcond.2
            have hdrop : List.drop fence.length (c :: cs) = t := by
              rw [ht, List.drop_left]
            have hlen : t.length ≤ n := by
              have := congrArg List.length ht
              simp [List.length_append] at this
              have : t.length + 2 = cs.length := by
                rw [fence_eq_bts] at this; simp at this; omega
              simp [List.length_cons] at hl
              omega
            obtain ⟨hno, hlead⟩ := ih t hlen
            rw [hdrop]
            refine ⟨by simpa using hno, ?_⟩
            have hform : c :: cs = bt :: bt :: bt :: t := by
              rw [ht, fence_eq_bts]; rfl
            rw [hform]
            simp [leadB_cons]
            omega
          · rw [dif_neg hcond]
            have hcs : cs.length ≤ n := by simp [List.length_cons] at hl; omega
            obtain ⟨hno, hlead⟩ := ih cs hcs
            constructor
            · intro hocc
              rcases (occurs_cons_iff fence c (pyReplace fence [] cs)).mp hocc with
                ⟨t, ht⟩ | htail
              · -- an occurrence at the head: c and the next two output
                -- characters are backticks, so the input started with three
                -- backticks, contradicting the failed match.
                rw [fence_eq_bts] at ht
                injection ht with hc htail2
                subst hc
                have h2 : 2 ≤ leadB (pyReplace fence [] cs) := by
                  rw [leadB_ge_two_iff]
                  exact ⟨t, htail2⟩
                have hcs2 : 2 ≤ leadB cs := le_trans h2 hlead
                obtain ⟨u, hu⟩ := (leadB_ge_two_iff cs).mp hcs2
                exact hcond ⟨by decide, by
                  rw [hu, fence_eq_bts]
                  simp [List.isPrefixOf]⟩
              · exact hno htail
            · rw [leadB_cons]
              by_cases hc : c == bt
              · rw [if_pos hc, leadB_cons, if_pos hc]; omega
              · rw [if_neg hc, leadB_cons, if_neg hc]

theorem dropWhile_suffixE (p : Char → Bool) :
    ∀ l : List Char, ∃ s, l = s ++ l.dropWhile p := by
  intro l
  induction l with
  | nil => exact ⟨[], rfl⟩
  | cons c cs ih =>
      by_cases hc : p c
      · obtain ⟨s, hs⟩ := ih
        exact ⟨c :: s, by simp [List.dropWhile_cons, hc]; exact hs⟩
      · exact ⟨[], by simp [List.dropWhile_cons, hc]⟩

theorem dropWhile_head_not (p : Char → Bool) (l : List Char) :
    l.dropWhile p = [] ∨ ∃ c cs, l.dropWhile p = c :: cs ∧ p c = false := by
  induction l with
  | nil => exact Or.inl rfl
  | cons c cs ih =>
      by_cases hc : p c
      · simpa [List.dropWhile_cons, hc] using ih
      · exact Or.inr ⟨c, cs, by simp [List.dropWhile_cons, hc], by simpa using hc⟩

theorem pyStrip_eq_stripEnd (x : List Char) :
    pyStrip x = stripEnd (x.dropWhile isSpc) := rfl

theorem dropWhile_idem (p : Char → Bool) (l : List Char) :
    (l.dropWhile p).dropWhile p = l.dropWhile p := by
  rcases dropWhile_head_not p l with h | ⟨c, cs, hc, hpc⟩
  · rw [h]; rfl
  · rw [hc, List.dropWhile_cons, hpc]; simp

theorem dropWhile_length_le (p : Char → Bool) (l : List Char) :
    (l.dropWhile p).length ≤ l.length := by
  induction l with
  | nil => simp
  | cons c cs ih =>
      by_cases hc : p c
      · simp only [List.dropWhile_cons, if_pos hc, List.length_cons]
        omega
      · simp [List.dropWhile_cons, hc]

theorem head_false_of_dropWhile_self (p : Char → Bool) (c : Char) (cs : List Char)
    (h : List.dropWhile p (c :: cs) = c :: cs) : p c = false := by
  by_cases hpc : p c
  · rw [List.dropWhile_cons, if_pos hpc] at h
    have hle := dropWhile_length_le p cs
    have hlen := congrArg List.length h
    simp at hlen
    omega
  · simpa using hpc

theorem stripEnd_head (y : List Char) (hy : y.dropWhile isSpc = y) :
    (stripEnd y).dropWhile isSpc = stripEnd y := by
  obtain ⟨s, hs⟩ := dropWhile_suffixE isSpc y.reverse
  have hyy : y = stripEnd y ++ s.reverse := by
    have := congrArg List.reverse hs
    simpa [stripEnd] using this
  cases hz : stripEnd y with
  | nil => rfl
  | cons e es =>
      rw [hz] at hyy
      rw [hyy] at hy
      simp only [List.cons_append] at hy
      have he := head_false_of_dropWhile_self isSpc e (es ++ s.reverse) hy
      simp [List.dropWhile_cons, he]

theorem stripEnd_idem (y : List Char) : stripEnd (stripEnd y) = stripEnd y := by
  unfold stripEnd
  rw [List.reverse_reverse, dropWhile_idem]

theorem pyStrip_idem (x : List Char) : pyStrip (pyStrip x) = pyStrip x := by
  rw [pyStrip_eq_stripEnd (pyStrip x),
    pyStrip_eq_stripEnd x,
    stripEnd_head (x.dropWhile isSpc) (dropWhile_idem isSpc x),
    stripEnd_idem]

theorem pyStrip_decomp (x : List Char) : ∃ s t, x = s ++ pyStrip x ++ t := by
  obtain ⟨s1, hs1⟩ := dropWhile_suffixE isSpc x
  obtain ⟨s2, hs2⟩ := dropWhile_suffixE isSpc (x.dropWhile isSpc).reverse
  refine ⟨s1, s2.reverse, ?_⟩
  have hy : x.dropWhile isSpc = pyStrip x ++ s2.reverse := by
    have := congrArg List.reverse hs2
    simpa [pyStrip] using this
  calc x = s1 ++ x.dropWhile isSpc := hs1
    _ = s1 ++ (pyStrip x ++ s2.reverse) := by rw [hy]
    _ = s1 ++ pyStrip x ++ s2.reverse := by rw [List.append_assoc]

theorem occurs_of_occurs_pyStrip {pat x : List Char}
    (h : occurs pat (pyStrip x)) : occurs pat x := by
  obtain ⟨s, t, hst⟩ := pyStrip_decomp x
  obtain ⟨a, b, hab⟩ := h
  exact ⟨s ++ a, b ++ t, by rw [hst, hab]; simp [List.append_assoc]⟩

theorem clean_not_occurs_fence (s : List Char) : ¬ occurs fence (clean s) := by
  intro h
  exact (pyReplace_fence_spec (pyReplace fenceJson [] s).length _ le_rfl).1
    (occurs_of_occurs_pyStrip h)

theorem clean_idempotent_list (s : List Char) : clean (clean s) = clean s := by
  have hnof : ¬ occurs fence (clean s) := clean_not_occurs_fence s
  have hnoj : ¬ occurs fenceJson (clean s) := by
    rintro ⟨a, b, hab⟩
    exact hnof ⟨a, "json".data ++ b, by rw [hab, fenceJson_eq]; simp [List.append_assoc]⟩
  rw [clean]
  rw [pyReplace_of_not_occurs fenceJson [] (clean s) hnoj,
    pyReplace_of_not_occurs fence [] (clean s) hnof]
  rw [clean]
  exact pyStrip_idem _

/-! ### Claim theorems -/

/-- C9: cleaning (removing the fence markers and trimming surrounding
whitespace) is idempotent: for every string `s`, cleaning the output of
cleaning `s` yields the same result as cleaning `s` once; in particular an
already-clean string is returned unchanged. -/

theorem clean_idempotent (s : String) :
    cleanContent (cleanContent s) = cleanContent s := by
  show (clean ((clean s.data).asString).data).asString = (clean s.data).asString
  have h : ((clean s.data).asString).data = clean s.data := rfl
  rw [h, clean_idempotent_list]

/-- C6: for every scrape result carrying a fetch error, the coordinator
returns the terminal failure result
`{success: false, information: null, storage_success: false,
error: "Web scraping failed: ..."}` and performs no document-store and no
vector-store write (empty effect trace). -/

theorem coordinator_fetch_failure_short_circuit (beh : Behavior)
    (sr : ScrapeResult) (tenant_id : String) (h : sr.success = false) :
    vectorize_and_store_web_content beh sr tenant_id =
      (.ok { success := false, information := none, storage_success := false,
             error := some ("Web scraping failed: " ++ sr.error) }, []) := by
  simp [vectorize_and_store_web_content, h]

/-- Witness for C6 at a concrete failed scrape. -/

theorem coordinator_fetch_failure_short_circuit_witness :
    vectorize_and_store_web_content behOk srFail "tenant-a" =
      (.ok { success := false, information := none, storage_success := false,
             error := some "Web scraping failed: connection timed out" }, []) :=
  coordinator_fetch_failure_short_circuit behOk srFail "tenant-a" rfl

/-- C2 (evaluation at the failing input): fetch succeeded, the model returned
the well-formed scenario-3 JSON, and every store is healthy — the claimed
result `{success: true, information: parsed mapping, storage_success: true,
error: null}` is never produced: the document-store call raises `TypeError`
(argument binding against `db_manager.insert_web_content`), the handler's
retry raises it again, and the exception escapes with no store write
performed. -/

theorem coordinator_success_scenario_crashes :
    vectorize_and_store_web_content behOk srOk "tenant-a" =
      (.error mongoCallTypeError, []) := rfl

/-- C5 (evaluation at the failing input): even with every collaborator
returning normally, the coordinator propagates an exception instead of
returning the structured `{success, information, storage_success, error}`
shape. -/

theorem coordinator_propagates_exception :
    vectorize_and_store_web_content behOk srOk "tenant-b" =
      (.error mongoCallTypeError, []) := rfl

/-- C4 (evaluation at the failing input): fetch succeeded and the model call
times out — the claim says an EnrichedRecord with a null summary and a
raw-text VectorPoint are still persisted and `{success: false,
storage_success: true}` returned; instead the handler's document-store call
raises `TypeError`, nothing is persisted (empty effect trace) and no result
is returned. -/

theorem coordinator_model_failure_no_persistence :
    vectorize_and_store_web_content behTimeout srOk "tenant-c" =
      (.error mongoCallTypeError, []) := rfl

/-- C3 (evaluation at the failing input): the document-store write step fails
(the call raises before reaching the store); the coordinator catches the
first failure in its generic handler and re-attempts the document write
instead of aborting and reporting, and the second failure propagates as an
uncaught exception — no structured failure report, no completed document
write and no vector-store write (empty effect trace). -/

theorem coordinator_docwrite_failure_not_reported :
    vectorize_and_store_web_content behOk srOk "tenant-d" =
      (.error mongoCallTypeError, []) := rfl

/-- C10: the vector-storage wrapper is total over store behavior — it always
returns the `{success, info, error}` record (by its type, no exception can
propagate); `success = true` with `error = null` holds exactly when the
store interaction (connect, then insert) returns without raising, and
otherwise `success = false` with the raising call's message (the connection
failure wrapped by `connect`, the upsert failure verbatim) as the error. -/

theorem vectorize_information_to_qdrant_total (beh : Behavior) (vp : List VPayload) :
    ((vectorize_information_to_qdrant beh vp).1.success = true ∧
        (vectorize_information_to_qdrant beh vp).1.error = none ↔
      exOk beh.qdrantConnect = true ∧ exOk beh.qdrantUpsert = true) ∧
    (∀ e, beh.qdrantConnect = .error e →
      (vectorize_information_to_qdrant beh vp).1.success = false ∧
      (vectorize_information_to_qdrant beh vp).1.error =
        some ("Failed to connect to Qdrant: " ++ e)) ∧
    (∀ e, beh.qdrantConnect = .ok () → beh.qdrantUpsert = .error e →
      (vectorize_information_to_qdrant beh vp).1.success = false ∧
      (vectorize_information_to_qdrant beh vp).1.error = some e) := by
  cases hc : beh.qdrantConnect with
  | error e =>
      cases hu : beh.qdrantUpsert <;>
        simp [vectorize_information_to_qdrant, exOk, hc, hu]
  | ok u =>
      cases hu : beh.qdrantUpsert <;>
        simp [vectorize_information_to_qdrant, exOk, hc, hu]

/-- Witness for C10: both failure shapes at concrete behaviors. -/

theorem vectorize_information_to_qdrant_total_witness :
    ((vectorize_information_to_qdrant behConnFail []).1.success = false ∧
      (vectorize_information_to_qdrant behConnFail []).1.error =
        some "Failed to connect to Qdrant: store unreachable") ∧
    ((vectorize_information_to_qdrant behUpsertFail []).1.success = false ∧
      (vectorize_information_to_qdrant behUpsertFail []).1.error =
        some "upsert failed") :=
  ⟨(vectorize_information_to_qdrant_total behConnFail []).2.1 "store unreachable" rfl,
   (vectorize_information_to_qdrant_total behUpsertFail []).2.2 "upsert failed" rfl rfl⟩

/-- C7 (counterexample): in the `backend/rag/qdrant.py` revision of the insert
operation the written point keeps the caller-supplied payload tenant `B`
under a store instance whose tenant is `A` — only `session_id` is added, so
the claim that every written point carries the instance's `tenant_id` fails
at this concrete input. -/

theorem insert_rag_keeps_caller_tenant :
    insert_data_to_qdrant_rag [] [entryB] "sess0" ids0 =
      .ok [{ id := "pt0", vector := some [1],
             payload := [("tenant_id", PyVal.pstr "B"),
                         ("session_id", PyVal.pstr "sess0")] }] ∧
    PyVal.pstr "B" ≠ PyVal.pstr "A" := by
  refine ⟨rfl, ?_⟩
  intro h
  injection h with h'
  exact absurd h' (by decide)

/-- C7 (amended): in the `models/rag/qdrant.py` revision every point handed to
the upsert carries payload `tenant_id` equal to the store instance's tenant
id, regardless of any caller-supplied value. -/

theorem insert_models_tags_tenant (entries : List VSet) (sid tid : String)
    (ids : Nat → String) (n : Nat) (p : Point)
    (hp : p ∈ buildPoints_models sid tid ids entries n) :
    pyLookup p.payload "tenant_id" = some (.pstr tid) := by
  induction entries generalizing n with
  | nil => simp [buildPoints_models] at hp
  | cons e rest ih =>
      cases e with
      | notDict => exact ih n (by simpa [buildPoints_models] using hp)
      | entry v pl =>
          cases v with
          | none => exact ih n (by simpa [buildPoints_models] using hp)
          | some vec =>
              by_cases hv : vec.isEmpty
              · exact ih n (by simpa [buildPoints_models, hv] using hp)
              · rw [buildPoints_models, if_neg (by simpa using hv)] at hp
                rcases List.mem_cons.mp hp with hpe | hp'
                · rw [hpe]
                  exact pyLookup_pySet_self _ _ _
                · exact ih (n + 1) hp'

/-- Witness for C7 (amended) at the concrete entry `entryB`. -/

theorem insert_models_tags_tenant_witness :
    pyLookup pointA.payload "tenant_id" = some (.pstr "A") :=
  insert_models_tags_tenant [entryB] "sess0" "A" ids0 0 pointA (by
    have h : buildPoints_models "sess0" "A" ids0 [entryB] 0 = [pointA] := rfl
    rw [h]
    exact List.Mem.head _)

/-- C8: the heading subset handed to the prompt is capped at a fixed total
count across all levels and is filled greedily from h1 down to h6; in
particular, for `{h1: [a], h2: [b, c], h3: [d]}` and a cap of 3 the collected
subset is exactly `{h1: [a], h2: [b, c]}`. -/

theorem collect_headings_cap_and_example :
    (∀ (hs : List (String × List String)) (cap : Nat),
      headingsCount (collect_headings hs cap) ≤ cap) ∧
    collect_headings exampleHeadings 3 = [("h1", ["a"]), ("h2", ["b", "c"])] := by
  constructor
  · intro hs
    induction hs with
    | nil => intro cap; simp [collect_headings, headingsCount]
    | cons e rest ih =>
        intro cap
        obtain ⟨lvl, hsl⟩ := e
        cases cap with
        | zero => simp [collect_headings, headingsCount]
        | succ m =>
            rw [collect_headings, if_neg (Nat.succ_ne_zero m)]
            by_cases he : (hsl.take (m + 1)).isEmpty
            · simpa [he] using ih (m + 1)
            · rw [if_neg (by simpa using he)]
              have htk : (hsl.take (m + 1)).length ≤ m + 1 := by
                simp [List.length_take]
              have hrest := ih (m + 1 - (hsl.take (m + 1)).length)
              simp only [headingsCount, List.map_cons, List.sum_cons] at *
              omega
  · rfl

theorem pyEq_pstr_iff (v : PyVal) (s : String) :
    pyEq v (.pstr s) = true ↔ v = .pstr s := by
  cases v <;> simp [pyEq]

/-- Supporting fact for the tenant-isolation analysis: the `models/rag`
revision's search (`search_data_in_qdrant`) does isolate tenants — every
returned point's payload carries exactly the requested tenant id, for any
stored collection and any store-side ranking that only reorders or drops
candidates. -/

theorem search_in_qdrant_isolates (store : List Point)
    (rank : List Point → List Point)
    (hrank : ∀ l (p : Point), p ∈ rank l → p ∈ l)
    (tenant_id : String) (limit : Nat) (p : Point)
    (hp : p ∈ search_data_in_qdrant store rank tenant_id limit) :
    pyLookup p.payload "tenant_id" = some (.pstr tenant_id) := by
  unfold search_data_in_qdrant clientSearch at hp
  have hp1 : p ∈ rank (store.filter _) := List.mem_of_mem_take hp
  have hp2 := hrank _ _ hp1
  have hp3 := (List.mem_filter.mp hp2).2
  simp only [List.all_cons, List.all_nil, Bool.and_true] at hp3
  rcases hlk : pyLookup p.payload "tenant_id" with _ | v
  · rw [hlk] at hp3
    exact absurd hp3 (by simp)
  · rw [hlk] at hp3
    rw [(pyEq_pstr_iff v tenant_id).mp hp3]

/-- Witness for `search_in_qdrant_isolates` at a concrete two-tenant store. -/

theorem search_in_qdrant_isolates_witness :
    pyLookup pointB.payload "tenant_id" = some (.pstr "B") :=
  search_in_qdrant_isolates [pointA, pointB] id (fun _ _ h => h) "B" 5 pointB
    (by
      have h : search_data_in_qdrant [pointA, pointB] id "B" 5 = [pointB] := rfl
      rw [h]
      exact List.Mem.head _)

/-- C1 (counter-evidence at a concrete input): the `backend/rag/qdrant.py`
revision's search builds a tenant filter but never passes it to the client's
search call, so a search on behalf of tenant `A` returns the stored point of
tenant `B`. -/

theorem search_from_qdrant_ignores_tenant :
    search_data_from_qdrant [pointB] id (some "A") 5 = [pointB] ∧
    pyLookup pointB.payload "tenant_id" = some (.pstr "B") ∧
    PyVal.pstr "B" ≠ PyVal.pstr "A" := by
  refine ⟨rfl, rfl, ?_⟩
  intro h
  injection h with h'
  exact absurd h' (by decide)
